import Mathlib

/-!
Verification of the GhostPet3D asset-generation pipeline
(`Tools/AIGeneration/regenerate_all_assets.py`): the asset registry,
the selection resolver `get_assets_to_generate`, the generation client
`AssetGenerator.generate_image`, the deterministic download manager
`AssetGenerator.download_image`, and the batch loop of `main`.

The embedding is shallow: Python dicts (which preserve insertion order)
become association lists, the external image service is modelled by its
request/response contract (a response is either a transport failure, a
malformed body, or a parsed body whose `data` field is absent or a list
of URLs), and the local filesystem is an association list from paths to
byte strings.  Each batch item carries its own pair of service responses,
so a run of the orchestrator is a pure fold over the work list.
-/

/-- One registry entry: the generation prompt and the destination
filename, as stored in the nested `GAME_ASSETS` dict. -/
structure AssetData where
  prompt : String
  filename : String
deriving DecidableEq, Inhabited

/-- A category is an insertion-ordered mapping from asset name to its
definition (one inner dict of `GAME_ASSETS`). -/
abbrev AssetCategory := List (String × AssetData)

/-- The registry type: insertion-ordered mapping from category name to
its assets (the shape of `GAME_ASSETS`). -/
abbrev Registry := List (String × AssetCategory)

/-- Association-list lookup, the model of Python `d[k]` / `k in d` on an
insertion-ordered dict. -/
def lookupAssoc {α : Type} (k : String) : List (String × α) → Option α
  | [] => none
  | (k2, v) :: rest => if k2 = k then some v else lookupAssoc k rest

/-- Association-list update, the model of writing a file at a path:
replaces the previous binding wholesale or appends a fresh one. -/
def setAssoc {α : Type} (k : String) (v : α) : List (String × α) → List (String × α)
  | [] => [(k, v)]
  | (k2, v2) :: rest => if k2 = k then (k, v) :: rest else (k2, v2) :: setAssoc k v rest

/-- Base output directory (`BASE_OUTPUT_DIR`). -/
def BASE_OUTPUT_DIR : String := "Assets/GeneratedAssets"

/-- The folder table `FOLDERS`: category name to output folder. -/
def FOLDERS : List (String × String) :=
  [("characters", BASE_OUTPUT_DIR ++ "/characters"),
   ("weapons", BASE_OUTPUT_DIR ++ "/weapons"),
   ("ui_elements", BASE_OUTPUT_DIR ++ "/ui_elements"),
   ("effects", BASE_OUTPUT_DIR ++ "/effects")]

/-- The asset registry `GAME_ASSETS`, in declaration order. -/
def GAME_ASSETS : Registry :=
  [("characters",
    [("player_character",
      { prompt := "mystical warrior cultivator, ancient chinese robes, commanding pose with outstretched arms, channeling magical energy, spellcasting gestures, ethereal aura swirling around body, concentrating on mystical energy control, meditation pose, no weapons, no swords, clean character only, 2D game character sprite, transparent background, isolated, PNG format, game asset",
        filename := "player_character.png" }),
     ("basic_ghost",
      { prompt := "chinese ghost spirit, translucent white appearance, glowing red eyes, tattered traditional robes, menacing floating pose, 2D game enemy sprite, white background, isolated character, PNG format",
        filename := "basic_ghost.png" }),
     ("strong_ghost",
      { prompt := "powerful ghost demon, dark smoky aura, fierce red glowing eyes, larger intimidating size, torn black robes, boss enemy sprite, white background, isolated, PNG format, 2D game asset, image background removed",
        filename := "strong_ghost.png" })]),
   ("weapons",
    [("flying_sword",
      { prompt := "fantasy crystal sword, translucent silver-white blade with sharp geometric design, ornate hilt with square blue gemstone decorations, modern game weapon style, floating horizontally, clean magical weapon, no energy effects, transparent background, isolated weapon, PNG format, 2D game sprite",
        filename := "flying_sword.png" }),
     ("sword_energy",
      { prompt := "fantasy crystal sword, translucent silver-white blade with sharp geometric design, ornate hilt with square blue gemstone decorations, modern game weapon style, floating horizontally, PLUS intense blue magical energy aura swirling around entire sword, flowing energy wisps, power charging effect, mystical flames, magical enhancement glow, transparent background, isolated weapon, PNG format, 2D game sprite",
        filename := "sword_energy.png" })]),
   ("effects",
    [("sword_trail",
      { prompt := "sword afterimage trail, blue energy motion blur, fading opacity effect, mystical sword path, white background, isolated effect, PNG format, 2D game trail effect",
        filename := "sword_trail.png" }),
     ("hit_effect",
      { prompt := "sword strike impact sparks, golden energy burst, hit collision effect, impact particles, white background, isolated effect, PNG format, 2D game impact animation",
        filename := "hit_effect.png" }),
     ("enemy_death",
      { prompt := "ghost dissipation effect, white smoke particles, spirit fading away, death animation effect, white background, isolated effect, PNG format, enemy destruction effect",
        filename := "enemy_death.png" })]),
   ("ui_elements",
    [("health_bar_frame",
      { prompt := "ancient chinese health bar frame, wooden texture with gold inlay, jade corner decorations, traditional border design, white background, isolated UI element, PNG format",
        filename := "health_bar_frame.png" }),
     ("score_panel",
      { prompt := "traditional chinese scroll panel, aged parchment texture, gold decorative borders, corner tassels, score display background, white background, isolated UI, PNG format",
        filename := "score_panel.png" }),
     ("sword_icon",
      { prompt := "small sword status icon, minimalist chinese sword symbol, golden color, simple design for UI, white background, isolated icon, PNG format, 64x64 size",
        filename := "sword_icon.png" })])]

/-- A resolved unit of work: `(category_name, asset_name, asset_data)`
as appended to `assets_to_generate`. -/
structure WorkItem where
  category : String
  name : String
  data : AssetData
deriving DecidableEq, Inhabited

/-- Non-fatal resolution warnings printed by `get_assets_to_generate`. -/
inductive ResolveWarning where
  | assetNotFound (name : String)
  | unknownCategory (c : String)
deriving DecidableEq

/-- The selection criterion: `--asset names`, `--category c`, or neither. -/
inductive SelectionCriterion where
  | explicitNames (names : List String)
  | category (c : String)
  | all
deriving DecidableEq

/-- The inner loop of the `--asset` branch: scan categories in
declaration order, return the first one containing `name`. -/
def lookupByName (name : String) : Registry → Option (String × AssetData)
  | [] => none
  | (c, assets) :: rest =>
    match lookupAssoc name assets with
    | some d => some (c, d)
    | none => lookupByName name rest

/-- The `--asset` branch of `get_assets_to_generate`: for each name in
order, first matching category wins; a miss prints a warning and the
loop continues. -/
def resolveExplicit (reg : Registry) : List String → List WorkItem × List ResolveWarning
  | [] => ([], [])
  | n :: ns =>
    match lookupByName n reg with
    | some (c, d) => (⟨c, n, d⟩ :: (resolveExplicit reg ns).1, (resolveExplicit reg ns).2)
    | none => ((resolveExplicit reg ns).1, ResolveWarning.assetNotFound n :: (resolveExplicit reg ns).2)

/-- The `--category` branch of `get_assets_to_generate`: all entries of
the category in order, or an error message and an empty list. -/
def resolveCategory (reg : Registry) (c : String) : List WorkItem × List ResolveWarning :=
  match lookupAssoc c reg with
  | some assets => (assets.map (fun q => ⟨c, q.1, q.2⟩), [])
  | none => ([], [ResolveWarning.unknownCategory c])

/-- The default branch of `get_assets_to_generate`: flatten the whole
registry in declaration order. -/
def resolveAll : Registry → List WorkItem
  | [] => []
  | (c, assets) :: rest => assets.map (fun q => ⟨c, q.1, q.2⟩) ++ resolveAll rest

/-- The selection resolver `get_assets_to_generate`: work items plus the
warnings printed along the way. -/
def get_assets_to_generate (reg : Registry) : SelectionCriterion → List WorkItem × List ResolveWarning
  | SelectionCriterion.explicitNames ns => resolveExplicit reg ns
  | SelectionCriterion.category c => resolveCategory reg c
  | SelectionCriterion.all => (resolveAll reg, [])

/-- Typed failures of one generation exchange (section 7 error kinds
that surface as GenerationFailed). -/
inductive GenError where
  | networkError
  | malformedResponse
  | emptyResult
deriving DecidableEq

/-- Body of a generation response once the transport succeeded: either
not valid JSON, or valid with an optional `data` array of URLs. -/
inductive GenBody where
  | malformed
  | valid (data : Option (List String))
deriving DecidableEq

/-- One generation exchange as seen by the client: transport failure
(non-2xx, connection error, timeout) or a body. -/
inductive GenResponse where
  | networkError
  | ok (body : GenBody)
deriving DecidableEq

/-- Response to the download GET: transport failure or raw bytes. -/
inductive DownloadResponse where
  | failure
  | ok (content : List Nat)
deriving DecidableEq

/-- The local filesystem: association list from path to file bytes. -/
abbrev FileSystem := List (String × List Nat)

/-- Parsing logic of `AssetGenerator.generate_image` lines 118-135:
`raise_for_status` and transport errors give `networkError`,
`json.JSONDecodeError` gives `malformedResponse`, a missing or empty
`data` array gives `emptyResult`, otherwise the first URL is returned. -/
def parseGeneration : GenResponse → Except GenError String
  | GenResponse.networkError => Except.error GenError.networkError
  | GenResponse.ok GenBody.malformed => Except.error GenError.malformedResponse
  | GenResponse.ok (GenBody.valid none) => Except.error GenError.emptyResult
  | GenResponse.ok (GenBody.valid (some [])) => Except.error GenError.emptyResult
  | GenResponse.ok (GenBody.valid (some (u :: _))) => Except.ok u

/-- Whether the generation exchange produced a usable URL. -/
def genOk (g : GenResponse) : Bool :=
  match parseGeneration g with
  | Except.ok _ => true
  | Except.error _ => false

/-- `AssetGenerator.download_image`: GET the URL, look the category up
in `FOLDERS`, write the bytes at `folder/filename` (truncating write,
full replacement).  Every exception, the folder-table miss included, is
caught and turned into `False`. -/
def download_image (resp : DownloadResponse) (category filename : String)
    (fs : FileSystem) : Bool × FileSystem :=
  match resp with
  | DownloadResponse.failure => (false, fs)
  | DownloadResponse.ok content =>
    match lookupAssoc category FOLDERS with
    | some folder => (true, setAssoc (folder ++ "/" ++ filename) content fs)
    | none => (false, fs)

/-- Events observable from the batch loop, used to count attempts and
pauses. -/
inductive BatchEvent where
  | genAttempt
  | downloadAttempt
  | pause
deriving DecidableEq

/-- `AssetGenerator.generate_image`: one POST (always attempted), and on
a parsed URL one download attempt; any typed failure is caught and
returned as `False`. -/
def generate_image (g : GenResponse) (d : DownloadResponse) (category filename : String)
    (fs : FileSystem) : Bool × FileSystem × List BatchEvent :=
  match parseGeneration g with
  | Except.error _ => (false, fs, [BatchEvent.genAttempt])
  | Except.ok _ =>
    ((download_image d category filename fs).1,
     (download_image d category filename fs).2,
     [BatchEvent.genAttempt, BatchEvent.downloadAttempt])

/-- The batch loop of `main` lines 276-292: process every item in order,
record its boolean outcome, and sleep after every item except the last
(`if i < total_assets`), whatever the item's outcome was. -/
def runBatch (fs : FileSystem) :
    List (WorkItem × GenResponse × DownloadResponse) →
    FileSystem × List (WorkItem × Bool) × List BatchEvent
  | [] => (fs, [], [])
  | (wi, g, d) :: rest =>
    ((runBatch (generate_image g d wi.category wi.data.filename fs).2.1 rest).1,
     (wi, (generate_image g d wi.category wi.data.filename fs).1) ::
       (runBatch (generate_image g d wi.category wi.data.filename fs).2.1 rest).2.1,
     (generate_image g d wi.category wi.data.filename fs).2.2 ++
       (if rest.isEmpty then [] else [BatchEvent.pause]) ++
       (runBatch (generate_image g d wi.category wi.data.filename fs).2.1 rest).2.2)

/-- Outcome of one item in isolation: the boolean `generate_image`
returns, which does not depend on the filesystem threaded through. -/
def itemOutcome (t : WorkItem × GenResponse × DownloadResponse) : Bool :=
  (generate_image t.2.1 t.2.2 t.1.category t.1.data.filename []).1

/-- Number of occurrences of one event in a trace. -/
def countEvent (e : BatchEvent) : List BatchEvent → Nat
  | [] => 0
  | x :: xs => (if x = e then 1 else 0) + countEvent e xs

/-- The end-of-run summary of `main` lines 294-308: total count, success
count, and the per-item success/failure lines printed in order. -/
structure BatchReport where
  total : Nat
  succeeded : List (String × String)
  failed : List (String × String)
deriving DecidableEq

/-- Report builder: partition the ordered outcomes of a run. -/
def buildReport (outs : List (WorkItem × Bool)) : BatchReport :=
  { total := outs.length
    succeeded := (outs.filter (fun p => p.2)).map (fun p => (p.1.category, p.1.name))
    failed := (outs.filter (fun p => !p.2)).map (fun p => (p.1.category, p.1.name)) }

theorem lookupAssoc_setAssoc_self {α : Type} (k : String) (v : α) (l : List (String × α)) :
    lookupAssoc k (setAssoc k v l) = some v := by
  induction l with
  | nil => simp [setAssoc, lookupAssoc]
  | cons p rest ih =>
    obtain ⟨k2, v2⟩ := p
    by_cases h : k2 = k
    · simp [setAssoc, h, lookupAssoc]
    · simp [setAssoc, h, lookupAssoc, ih]

theorem lookupAssoc_mem_keys {α : Type} (k : String) (v : α) (l : List (String × α))
    (h : lookupAssoc k l = some v) : k ∈ l.map Prod.fst := by
  induction l with
  | nil => simp [lookupAssoc] at h
  | cons p rest ih =>
    obtain ⟨k2, v2⟩ := p
    by_cases hk : k2 = k
    · simp [hk]
    · simp only [lookupAssoc, hk, if_false] at h
      simp [List.mem_cons, ih h]

theorem lookupByName_mem_keys (n c : String) (d : AssetData) (reg : Registry)
    (h : lookupByName n reg = some (c, d)) : c ∈ reg.map Prod.fst := by
  induction reg with
  | nil => simp [lookupByName] at h
  | cons p rest ih =>
    obtain ⟨c2, assets⟩ := p
    cases ha : lookupAssoc n assets with
    | some d2 =>
      simp [lookupByName, ha] at h
      simp [h.1]
    | none =>
      simp only [lookupByName, ha] at h
      simp [List.mem_cons, ih h]

/-- C3: resolving `ExplicitNames(names)` yields, per name in order,
exactly one work item (name found) or exactly one `AssetNotFound`
warning (name missing, later names still resolved), so work items plus
warnings number exactly `len(names)`. -/
theorem resolveExplicit_partition (reg : Registry) (names : List String) :
    (resolveExplicit reg names).1.length + (resolveExplicit reg names).2.length = names.length ∧
    (resolveExplicit reg names).1.map WorkItem.name =
      names.filter (fun n => (lookupByName n reg).isSome) ∧
    (resolveExplicit reg names).2 =
      (names.filter (fun n => (lookupByName n reg).isNone)).map ResolveWarning.assetNotFound := by
  induction names with
  | nil => simp [resolveExplicit]
  | cons n ns ih =>
    obtain ⟨ih1, ih2, ih3⟩ := ih
    cases h : lookupByName n reg with
    | some cd =>
      obtain ⟨c, d⟩ := cd
      refine ⟨?_, ?_, ?_⟩
      · simp [resolveExplicit, h]; omega
      · simp [resolveExplicit, h, List.filter_cons, ih2]
      · simp [resolveExplicit, h, List.filter_cons, ih3]
    | none =>
      refine ⟨?_, ?_, ?_⟩
      · simp [resolveExplicit, h]; omega
      · simp [resolveExplicit, h, List.filter_cons, ih2]
      · simp [resolveExplicit, h, List.filter_cons, ih3]

/-- C4: resolving `Category(c)` returns work items all carrying category
`c` (in entry order) when `c` is in the registry, and an empty work list
with an `UnknownCategory` warning otherwise. -/
theorem resolveCategory_partition (reg : Registry) (c : String) :
    (∀ wi ∈ (resolveCategory reg c).1, wi.category = c) ∧
    (∀ assets, lookupAssoc c reg = some assets →
      resolveCategory reg c = (assets.map (fun q => ⟨c, q.1, q.2⟩), [])) ∧
    (lookupAssoc c reg = none →
      resolveCategory reg c = ([], [ResolveWarning.unknownCategory c])) := by
  refine ⟨?_, ?_, ?_⟩
  · intro wi hwi
    cases h : lookupAssoc c reg with
    | some assets =>
      simp [resolveCategory, h] at hwi
      obtain ⟨q, qd, hmem, heq⟩ := hwi
      subst heq
      rfl
    | none => simp [resolveCategory, h] at hwi
  · intro assets h
    simp [resolveCategory, h]
  · intro h
    simp [resolveCategory, h]

/-- Witness for C4 at a category absent from `GAME_ASSETS`. -/
theorem resolveCategory_partition_witness :
    lookupAssoc "vehicles" GAME_ASSETS = none ∧
    resolveCategory GAME_ASSETS "vehicles" = ([], [ResolveWarning.unknownCategory "vehicles"]) :=
  ⟨by decide, (resolveCategory_partition GAME_ASSETS "vehicles").2.2 (by decide)⟩

/-- C6: `lookup_by_name` scans categories in declaration order and
returns the first category containing the name (so an earlier-declared
category always beats a later one holding the same name), and returns
absent when no category contains it. -/
theorem lookupByName_first_wins (name c : String) (d : AssetData)
    (pre post : Registry) (assets : AssetCategory)
    (hpre : ∀ p ∈ pre, lookupAssoc name p.2 = none)
    (hd : lookupAssoc name assets = some d) :
    lookupByName name (pre ++ (c, assets) :: post) = some (c, d) ∧
    ∀ reg : Registry, (∀ p ∈ reg, lookupAssoc name p.2 = none) →
      lookupByName name reg = none := by
  have part1 : ∀ pre2 : Registry, (∀ p ∈ pre2, lookupAssoc name p.2 = none) →
      lookupByName name (pre2 ++ (c, assets) :: post) = some (c, d) := by
    intro pre2
    induction pre2 with
    | nil => intro _; simp [lookupByName, hd]
    | cons p rest ih =>
      intro hp
      obtain ⟨c2, a2⟩ := p
      have h2 : lookupAssoc name a2 = none := hp (c2, a2) (List.mem_cons_self _ _)
      simp only [List.cons_append, lookupByName, h2]
      exact ih (fun q hq => hp q (List.mem_cons_of_mem _ hq))
  have part2 : ∀ reg : Registry, (∀ p ∈ reg, lookupAssoc name p.2 = none) →
      lookupByName name reg = none := by
    intro reg
    induction reg with
    | nil => intro _; rfl
    | cons p rest ih =>
      intro hp
      obtain ⟨c2, a2⟩ := p
      have h2 : lookupAssoc name a2 = none := hp (c2, a2) (List.mem_cons_self _ _)
      simp only [lookupByName, h2]
      exact ih (fun q hq => hp q (List.mem_cons_of_mem _ hq))
  exact ⟨part1 pre hpre, part2⟩

/-- Witness for C6: the name `dup` lives in both `c2` and `c3`; lookup
over `c1, c2, c3` returns the `c2` entry. -/
theorem lookupByName_first_wins_witness :
    lookupByName "dup" ([("c1", [("other", ⟨"p0", "f0"⟩)])] ++
      ("c2", [("dup", ⟨"p1", "f1"⟩)]) :: [("c3", [("dup", ⟨"p2", "f2"⟩)])]) =
      some ("c2", ⟨"p1", "f1"⟩) :=
  (lookupByName_first_wins "dup" "c2" ⟨"p1", "f1"⟩
    [("c1", [("other", ⟨"p0", "f0"⟩)])] [("c3", [("dup", ⟨"p2", "f2"⟩)])]
    [("dup", ⟨"p1", "f1"⟩)]
    (by intro p hp; simp at hp; subst hp; decide) (by decide)).1

/-- C8: the generation client's response-body handling — a body that is
not valid structured data fails with `MalformedResponseError`, a valid
body without a non-empty `data` array fails with `EmptyResultError`, and
a non-empty `data` array yields exactly the first result's URL. -/
theorem parseGeneration_cases (data : Option (List String)) (u : String) (us : List String) :
    parseGeneration (GenResponse.ok GenBody.malformed) =
      Except.error GenError.malformedResponse ∧
    ((data = none ∨ data = some []) →
      parseGeneration (GenResponse.ok (GenBody.valid data)) =
        Except.error GenError.emptyResult) ∧
    parseGeneration (GenResponse.ok (GenBody.valid (some (u :: us)))) = Except.ok u := by
  refine ⟨rfl, ?_, rfl⟩
  rintro (rfl | rfl) <;> rfl

/-- Witness for C8 at a valid body whose `data` field is absent. -/
theorem parseGeneration_cases_witness :
    parseGeneration (GenResponse.ok (GenBody.valid none)) =
      Except.error GenError.emptyResult :=
  (parseGeneration_cases none "u" []).2.1 (Or.inl rfl)

/-- C9: in deterministic mode two successive successful downloads to the
same `(category, filename)` leave, at that path, exactly the second
payload — the second write fully replaces the first. -/
theorem download_image_overwrite (fs : FileSystem) (category filename folder : String)
    (b1 b2 : List Nat) (hf : lookupAssoc category FOLDERS = some folder) :
    (download_image (DownloadResponse.ok b1) category filename fs).1 = true ∧
    lookupAssoc (folder ++ "/" ++ filename)
      (download_image (DownloadResponse.ok b1) category filename fs).2 = some b1 ∧
    (download_image (DownloadResponse.ok b2) category filename
      (download_image (DownloadResponse.ok b1) category filename fs).2).1 = true ∧
    lookupAssoc (folder ++ "/" ++ filename)
      (download_image (DownloadResponse.ok b2) category filename
        (download_image (DownloadResponse.ok b1) category filename fs).2).2 = some b2 := by
  simp [download_image, hf, lookupAssoc_setAssoc_self]

/-- Witness for C9 on the `characters` folder with two distinct payloads. -/
theorem download_image_overwrite_witness :
    lookupAssoc "characters" FOLDERS = some (BASE_OUTPUT_DIR ++ "/characters") ∧
    lookupAssoc (BASE_OUTPUT_DIR ++ "/characters" ++ "/" ++ "x.png")
      (download_image (DownloadResponse.ok [2]) "characters" "x.png"
        (download_image (DownloadResponse.ok [1]) "characters" "x.png" []).2).2 = some [2] :=
  ⟨by decide,
   (download_image_overwrite [] "characters" "x.png" (BASE_OUTPUT_DIR ++ "/characters")
     [1] [2] (by decide)).2.2.2⟩

theorem mem_resolveAll_keys (wi : WorkItem) (reg : Registry) (h : wi ∈ resolveAll reg) :
    wi.category ∈ reg.map Prod.fst := by
  induction reg with
  | nil => simp [resolveAll] at h
  | cons p rest ih =>
    obtain ⟨c, assets⟩ := p
    simp only [resolveAll] at h
    rcases List.mem_append.mp h with h1 | h2
    · obtain ⟨q, hq, rfl⟩ := List.mem_map.mp h1
      simp
    · simp [List.map_cons, List.mem_cons, ih h2]

theorem mem_resolveExplicit_keys (reg : Registry) :
    ∀ (ns : List String) (wi : WorkItem), wi ∈ (resolveExplicit reg ns).1 →
      wi.category ∈ reg.map Prod.fst := by
  intro ns
  induction ns with
  | nil => intro wi h; simp [resolveExplicit] at h
  | cons n ns ih =>
    intro wi h
    cases hl : lookupByName n reg with
    | some cd =>
      obtain ⟨c, d⟩ := cd
      simp only [resolveExplicit, hl] at h
      rcases List.mem_cons.mp h with h1 | h2
      · subst h1
        exact lookupByName_mem_keys n c d reg hl
      · exact ih wi h2
    | none =>
      simp only [resolveExplicit, hl] at h
      exact ih wi h

theorem mem_resolveCategory_keys (reg : Registry) (c : String) (wi : WorkItem)
    (h : wi ∈ (resolveCategory reg c).1) : wi.category ∈ reg.map Prod.fst := by
  cases hl : lookupAssoc c reg with
  | some assets =>
    simp only [resolveCategory, hl] at h
    obtain ⟨q, hq, rfl⟩ := List.mem_map.mp h
    exact lookupAssoc_mem_keys c assets reg hl
  | none => simp [resolveCategory, hl] at h

theorem work_item_category_in_registry (reg : Registry) (crit : SelectionCriterion)
    (wi : WorkItem) (h : wi ∈ (get_assets_to_generate reg crit).1) :
    wi.category ∈ reg.map Prod.fst := by
  cases crit with
  | explicitNames ns => exact mem_resolveExplicit_keys reg ns wi h
  | category c => exact mem_resolveCategory_keys reg c wi h
  | all => exact mem_resolveAll_keys wi reg h

/-- C5: resolving `All` flattens the registry in declaration order, so
the work list's length is the sum of the category sizes and — keys and
names being duplicate-free — no `(category, name)` pair repeats. -/
theorem resolveAll_complete (reg : Registry)
    (hkeys : (reg.map Prod.fst).Nodup)
    (hnames : ∀ p ∈ reg, (p.2.map Prod.fst).Nodup) :
    (resolveAll reg).length = (reg.map (fun p => p.2.length)).sum ∧
    ((resolveAll reg).map (fun wi => (wi.category, wi.name))).Nodup := by
  have hlen : ∀ reg2 : Registry,
      (resolveAll reg2).length = (reg2.map (fun p => p.2.length)).sum := by
    intro reg2
    induction reg2 with
    | nil => simp [resolveAll]
    | cons p rest ih =>
      obtain ⟨c, assets⟩ := p
      simp [resolveAll, ih]
  have hnodup : ∀ reg2 : Registry, (reg2.map Prod.fst).Nodup →
      (∀ p ∈ reg2, (p.2.map Prod.fst).Nodup) →
      ((resolveAll reg2).map (fun wi => (wi.category, wi.name))).Nodup := by
    intro reg2
    induction reg2 with
    | nil => intro _ _; simp [resolveAll]
    | cons p rest ih =>
      intro hk hn
      obtain ⟨c, assets⟩ := p
      have hk2 : c ∉ rest.map Prod.fst ∧ (rest.map Prod.fst).Nodup := by
        simpa [List.nodup_cons] using hk
      have hhead : ((assets.map (fun q => (⟨c, q.1, q.2⟩ : WorkItem))).map
          (fun wi => (wi.category, wi.name))).Nodup := by
        have heq : (assets.map (fun q => (⟨c, q.1, q.2⟩ : WorkItem))).map
            (fun wi => (wi.category, wi.name)) =
            (assets.map Prod.fst).map (fun n => (c, n)) := by
          simp [List.map_map, Function.comp]
        rw [heq]
        have hinj : Function.Injective (fun n : String => (c, n)) := by
          intro a b hab
          simpa using hab
        exact List.Nodup.map hinj (hn (c, assets) (List.mem_cons_self _ _))
      have htail : ((resolveAll rest).map (fun wi => (wi.category, wi.name))).Nodup :=
        ih hk2.2 (fun q hq => hn q (List.mem_cons_of_mem _ hq))
      have hdisj : List.Disjoint
          ((assets.map (fun q => (⟨c, q.1, q.2⟩ : WorkItem))).map
            (fun wi => (wi.category, wi.name)))
          ((resolveAll rest).map (fun wi => (wi.category, wi.name))) := by
        intro x hx1 hx2
        obtain ⟨wi1, hwi1, hx1e⟩ := List.mem_map.mp hx1
        obtain ⟨q, hq, hq1e⟩ := List.mem_map.mp hwi1
        obtain ⟨wi2, hwi2, hx2e⟩ := List.mem_map.mp hx2
        have hc1 : x.1 = c := by rw [← hx1e, ← hq1e]
        have hc2 : x.1 = wi2.category := by rw [← hx2e]
        have hmem : wi2.category ∈ rest.map Prod.fst := mem_resolveAll_keys wi2 rest hwi2
        rw [← hc2, hc1] at hmem
        exact hk2.1 hmem
      simp only [resolveAll, List.map_append]
      exact List.Nodup.append hhead htail hdisj
  exact ⟨hlen reg, hnodup reg hkeys hnames⟩

/-- Witness for C5 on the concrete `GAME_ASSETS` registry. -/
theorem resolveAll_complete_witness :
    (GAME_ASSETS.map Prod.fst).Nodup ∧
    (resolveAll GAME_ASSETS).length = (GAME_ASSETS.map (fun p => p.2.length)).sum ∧
    ((resolveAll GAME_ASSETS).map (fun wi => (wi.category, wi.name))).Nodup := by
  refine ⟨by decide, ?_, ?_⟩
  · exact (resolveAll_complete GAME_ASSETS (by decide) (by decide)).1
  · exact (resolveAll_complete GAME_ASSETS (by decide) (by decide)).2

/-- C10: every category key of `GAME_ASSETS` is a key of `FOLDERS`, so
the folder lookup in `download_image` succeeds for every work item the
resolver produces from the registry, whatever the selection. -/
theorem folders_cover_registry (crit : SelectionCriterion) (wi : WorkItem)
    (h : wi ∈ (get_assets_to_generate GAME_ASSETS crit).1) :
    (∀ c ∈ GAME_ASSETS.map Prod.fst, (lookupAssoc c FOLDERS).isSome = true) ∧
    (lookupAssoc wi.category FOLDERS).isSome = true := by
  have hcover : ∀ c ∈ GAME_ASSETS.map Prod.fst,
      (lookupAssoc c FOLDERS).isSome = true := by decide
  exact ⟨hcover, hcover _ (work_item_category_in_registry GAME_ASSETS crit wi h)⟩

set_option maxRecDepth 16384 in
/-- Witness for C10 at the work item resolved for `flying_sword`. -/
theorem folders_cover_registry_witness :
    (lookupAssoc ((get_assets_to_generate GAME_ASSETS
      (SelectionCriterion.explicitNames ["flying_sword"])).1.headI.category)
      FOLDERS).isSome = true :=
  (folders_cover_registry (SelectionCriterion.explicitNames ["flying_sword"]) _
    (by decide)).2

theorem generate_image_fst_const (g : GenResponse) (d : DownloadResponse)
    (category filename : String) (fs fs2 : FileSystem) :
    (generate_image g d category filename fs).1 =
      (generate_image g d category filename fs2).1 := by
  cases hg : parseGeneration g with
  | error e => simp [generate_image, hg]
  | ok u =>
    simp only [generate_image, hg]
    cases d with
    | failure => simp [download_image]
    | ok content =>
      cases hf : lookupAssoc category FOLDERS with
      | some folder => simp [download_image, hf]
      | none => simp [download_image, hf]

/-- C1: the batch loop records one boolean outcome per work item, in
order, and each outcome is a function of that item's own responses
alone — failures are absorbed into the outcome and never abort the
batch, so the outcome list is always complete. -/
theorem runBatch_outcomes_complete (fs : FileSystem)
    (batch : List (WorkItem × GenResponse × DownloadResponse)) :
    (runBatch fs batch).2.1 = batch.map (fun t => (t.1, itemOutcome t)) ∧
    (runBatch fs batch).2.1.length = batch.length := by
  have main : ∀ (b : List (WorkItem × GenResponse × DownloadResponse)) (fs : FileSystem),
      (runBatch fs b).2.1 = b.map (fun t => (t.1, itemOutcome t)) := by
    intro b
    induction b with
    | nil => intro fs; simp [runBatch]
    | cons t rest ih =>
      intro fs
      obtain ⟨wi, g, d⟩ := t
      simp only [runBatch, List.map_cons]
      rw [ih]
      have hconst := generate_image_fst_const g d wi.category wi.data.filename fs []
      simp [itemOutcome, hconst]
  exact ⟨main batch fs, by simp [main batch fs]⟩

theorem countEvent_append (e : BatchEvent) (l1 l2 : List BatchEvent) :
    countEvent e (l1 ++ l2) = countEvent e l1 + countEvent e l2 := by
  induction l1 with
  | nil => simp [countEvent]
  | cons x xs ih => simp [countEvent, ih, Nat.add_assoc]

theorem countEvent_pause_list (e : BatchEvent) (b : Bool) :
    countEvent e (if b = true then [] else [BatchEvent.pause]) =
      if b = true then 0 else if BatchEvent.pause = e then 1 else 0 := by
  cases b <;> simp [countEvent]

theorem generate_image_trace (g : GenResponse) (d : DownloadResponse)
    (category filename : String) (fs : FileSystem) :
    countEvent BatchEvent.genAttempt (generate_image g d category filename fs).2.2 = 1 ∧
    countEvent BatchEvent.downloadAttempt (generate_image g d category filename fs).2.2 =
      (if genOk g then 1 else 0) ∧
    countEvent BatchEvent.pause (generate_image g d category filename fs).2.2 = 0 := by
  cases hg : parseGeneration g with
  | error e => simp [generate_image, hg, genOk, countEvent]
  | ok u => simp [generate_image, hg, genOk, countEvent]

/-- C2: a batch of length N performs exactly N generation attempts, a
download attempt exactly for each item whose generation succeeded (hence
at most N), and exactly N-1 pauses (0 for N at most 1), the pause being
taken after every non-final item whether it succeeded or failed. -/
theorem runBatch_attempt_counts (fs : FileSystem)
    (batch : List (WorkItem × GenResponse × DownloadResponse)) :
    countEvent BatchEvent.genAttempt (runBatch fs batch).2.2 = batch.length ∧
    countEvent BatchEvent.downloadAttempt (runBatch fs batch).2.2 =
      (batch.filter (fun t => genOk t.2.1)).length ∧
    (batch.filter (fun t => genOk t.2.1)).length ≤ batch.length ∧
    countEvent BatchEvent.pause (runBatch fs batch).2.2 = batch.length - 1 := by
  have main : ∀ (b : List (WorkItem × GenResponse × DownloadResponse)) (fs : FileSystem),
      countEvent BatchEvent.genAttempt (runBatch fs b).2.2 = b.length ∧
      countEvent BatchEvent.downloadAttempt (runBatch fs b).2.2 =
        (b.filter (fun t => genOk t.2.1)).length ∧
      countEvent BatchEvent.pause (runBatch fs b).2.2 = b.length - 1 := by
    intro b
    induction b with
    | nil => intro fs; simp [runBatch, countEvent]
    | cons t rest ih =>
      intro fs
      obtain ⟨wi, g, d⟩ := t
      obtain ⟨ht1, ht2, ht3⟩ := generate_image_trace g d wi.category wi.data.filename fs
      obtain ⟨ih1, ih2, ih3⟩ := ih ((generate_image g d wi.category wi.data.filename fs).2.1)
      refine ⟨?_, ?_, ?_⟩
      · simp only [runBatch, countEvent_append, ht1, ih1, countEvent_pause_list,
          List.length_cons]
        cases rest with
        | nil => simp
        | cons r rs => simp; omega
      · simp only [runBatch, countEvent_append, ht2, ih2, countEvent_pause_list,
          List.filter_cons]
        cases rest with
        | nil => cases hg : genOk g <;> simp [hg]
        | cons r rs => cases hg : genOk g <;> simp [hg] <;> omega
      · simp only [runBatch, countEvent_append, ht3, ih3, countEvent_pause_list,
          List.length_cons]
        cases rest with
        | nil => simp
        | cons r rs =>
          simp
          omega
  refine ⟨(main batch fs).1, (main batch fs).2.1, ?_, (main batch fs).2.2⟩
  exact List.length_filter_le _ _

theorem length_filter_partition {α : Type} (p : α → Bool) (l : List α) :
    (l.filter p).length + (l.filter (fun a => !(p a))).length = l.length := by
  induction l with
  | nil => simp
  | cons x xs ih =>
    cases hp : p x with
    | true => simp [List.filter_cons, hp]; omega
    | false => simp [List.filter_cons, hp]; omega

/-- C7: the batch report counts every outcome (`total` equals succeeded
plus failed) and both partitions keep the original item order. -/
theorem buildReport_invariant (outs : List (WorkItem × Bool)) :
    (buildReport outs).total =
      (buildReport outs).succeeded.length + (buildReport outs).failed.length ∧
    List.Sublist (buildReport outs).succeeded
      (outs.map (fun p => (p.1.category, p.1.name))) ∧
    List.Sublist (buildReport outs).failed
      (outs.map (fun p => (p.1.category, p.1.name))) := by
  refine ⟨?_, ?_, ?_⟩
  · simp only [buildReport, List.length_map]
    exact (length_filter_partition (fun p => p.2) outs).symm
  · simp only [buildReport]
    exact List.Sublist.map _ (List.filter_sublist _)
  · simp only [buildReport]
    exact List.Sublist.map _ (List.filter_sublist _)
